import Mathlib

/-!
Verification of the FaucetBot betting-strategy and session-state engine
(`src/faucetbot/bot.py`).

Embedding conventions:
* Python `Decimal` monetary values and `float` configuration percentages are
  modelled as exact rationals (`ℚ`), matching the data model's "exact,
  arbitrary-precision decimal" reading.  For the one claim whose content is
  the exactness of the `Decimal` arithmetic itself (`_calculate_bet_amount`),
  Python's `Decimal` is modelled faithfully as a coefficient/exponent pair
  with the default context's 28-significant-digit round-half-even behaviour.
* I/O collaborators (`play_dice`, `faucet_cashout`, `withdraw`,
  `get_user_info`, the CoinGecko price fetch) are modelled as explicit
  result parameters fed to the orchestration functions: `Except` for calls
  whose exceptions the code observes, `Option` for absent data.
* Reason strings returned by `_should_stop_session` carry interpolated
  numbers in the source; they are abstracted to a `StopReason` tag.
-/

namespace FaucetBot

/-- `BetStrategy` enum from bot.py: low-risk vs high-risk bets in normal mode. -/
inductive BetStrategy where
  | LOW_RISK : BetStrategy
  | HIGH_RISK : BetStrategy
deriving DecidableEq, Repr

/-- `NormalModeConfig` dataclass: configuration for normal (Junkhead) mode. -/
structure NormalModeConfig where
  low_risk_win_chance : ℚ := 49.5
  low_risk_bet_percent : ℚ := 5
  high_risk_win_chance : ℚ := 12
  high_risk_bet_percent : ℚ := 1
  high_risk_frequency : Nat := 5
  alternate_direction : Bool := true
  max_bets_per_session : Nat := 50
  stop_loss_percent : ℚ := 50
  take_profit_percent : ℚ := 50
deriving DecidableEq, Repr

/-- `BotConfig` dataclass (the fields the core logic reads). -/
structure BotConfig where
  base_win_chance : ℚ := 1/100
  win_chance_increment : ℚ := 1/100
  bet_high : Bool := true
  normal_mode : NormalModeConfig := {}
  cashout_min_usd : ℚ := 20
  auto_withdraw : Bool := false
  withdrawal_address : String := ""
  withdrawal_min_usd : ℚ := 20
  price_refresh_sec : ℚ := 300
deriving DecidableEq, Repr

/-- `NormalModeSession` dataclass: per-run mutable session state. -/
structure NormalModeSession where
  initial_balance : ℚ := 0
  current_balance : ℚ := 0
  bet_count : Nat := 0
  win_count : Nat := 0
  loss_count : Nat := 0
  total_profit : ℚ := 0
  last_direction_high : Bool := true
  consecutive_losses : Nat := 0
  consecutive_wins : Nat := 0
deriving DecidableEq, Repr

/-- `_determine_strategy(bet_count)`: high-risk every `high_risk_frequency`-th
bet (when the frequency is positive), low-risk otherwise. -/
def determine_strategy (config : NormalModeConfig) (bet_count : Nat) : BetStrategy :=
  if config.high_risk_frequency > 0 ∧ bet_count > 0 then
    if bet_count % config.high_risk_frequency = 0 then BetStrategy.HIGH_RISK
    else BetStrategy.LOW_RISK
  else BetStrategy.LOW_RISK

/-- Value-level abstraction of `_calculate_bet_amount(balance, percent)` over
exact rationals: 0 on a non-positive balance or percent, else
`balance * percent / 100`. -/
def calculate_bet_amount_rat (balance percent : ℚ) : ℚ :=
  if balance ≤ 0 ∨ percent ≤ 0 then 0
  else balance * percent / 100

/-- `_get_bet_direction(session)`: flip the last direction when alternation is
enabled, otherwise the configured default. -/
def get_bet_direction (cfg : BotConfig) (session : NormalModeSession) : Bool :=
  if cfg.normal_mode.alternate_direction then !session.last_direction_high
  else cfg.bet_high

/-- The fields of a successful `play_dice` response that the bot reads:
`bet.result`, `bet.profit`, `bet.number`, and the post-bet balances for the
wagered currency from `user.balances`. -/
structure DiceOutcome where
  win : Bool
  profit : ℚ
  roll_number : Int
  new_main_balance : ℚ
  new_faucet_balance : ℚ
deriving DecidableEq, Repr

/-- `RollResult` dataclass: the wager record built by `roll_faucet` /
`roll_normal_mode`. -/
structure RollResult where
  currency : String
  bet_amount : ℚ
  win : Bool := false
  profit : ℚ := 0
  new_faucet_balance : ℚ := 0
  new_main_balance : ℚ := 0
  roll_number : Int := 0
  win_chance : ℚ := 0
  bet_high : Bool := true
  strategy : Option BetStrategy := none
  cashout_triggered : Bool := false
  cashout_success : Bool := false
  withdrawal_triggered : Bool := false
  withdrawal_success : Bool := false
  usd_value : ℚ := 0
deriving DecidableEq, Repr

/-- The session-state update block of `roll_normal_mode` (bot.py lines
616-630), applied once per completed wager: increment `bet_count`, persist
the direction used, accumulate the profit delta, adopt the reported post-bet
main balance, and update win/loss plus streak counters. -/
def update_session (session : NormalModeSession) (is_high : Bool)
    (o : DiceOutcome) : NormalModeSession :=
  let s := { session with
    bet_count := session.bet_count + 1
    last_direction_high := is_high
    total_profit := session.total_profit + o.profit
    current_balance := o.new_main_balance }
  if o.win then
    { s with
      win_count := s.win_count + 1
      consecutive_wins := s.consecutive_wins + 1
      consecutive_losses := 0 }
  else
    { s with
      loss_count := s.loss_count + 1
      consecutive_losses := s.consecutive_losses + 1
      consecutive_wins := 0 }

/-- Collaborator results consumed by one `roll_normal_mode` call: the
`play_dice` outcome (an exception aborts the wager), the USD price the
valuation helper resolves to, and the `withdraw` call's outcome should it be
invoked. -/
structure NormalRollEnv where
  dice : Except String DiceOutcome
  usd_price : ℚ
  withdraw_result : Except String Unit
deriving Repr

/-- `roll_normal_mode(currency, session)`: one normal-mode wager.  Returns the
call's outcome (the wager record, or the propagated bet-submission error) and
the session state after the call.  On a `play_dice` exception the session is
untouched and the exception is re-raised; on success the session update is
applied before the withdrawal side effect is considered, and a withdrawal
failure is caught, leaving `withdrawal_triggered` true and
`withdrawal_success` false. -/
def roll_normal_mode (cfg : BotConfig) (currency : String)
    (session : NormalModeSession) (env : NormalRollEnv) :
    Except String RollResult × NormalModeSession :=
  let config := cfg.normal_mode
  let strategy := determine_strategy config (session.bet_count + 1)
  let win_chance := match strategy with
    | BetStrategy.HIGH_RISK => config.high_risk_win_chance
    | BetStrategy.LOW_RISK => config.low_risk_win_chance
  let bet_percent := match strategy with
    | BetStrategy.HIGH_RISK => config.high_risk_bet_percent
    | BetStrategy.LOW_RISK => config.low_risk_bet_percent
  let bet_amount := calculate_bet_amount_rat session.current_balance bet_percent
  let is_high := get_bet_direction cfg session
  match env.dice with
  | Except.error e => (Except.error e, session)
  | Except.ok o =>
    let session' := update_session session is_high o
    let usd_value := o.new_main_balance * env.usd_price
    let result : RollResult := {
      currency := currency
      bet_amount := bet_amount
      win := o.win
      profit := o.profit
      new_faucet_balance := o.new_faucet_balance
      new_main_balance := o.new_main_balance
      roll_number := o.roll_number
      win_chance := win_chance
      bet_high := is_high
      strategy := some strategy
      usd_value := usd_value }
    if cfg.auto_withdraw ∧ cfg.withdrawal_address ≠ "" ∧
        usd_value ≥ cfg.withdrawal_min_usd then
      match env.withdraw_result with
      | Except.ok _ =>
        (Except.ok { result with withdrawal_triggered := true,
                                 withdrawal_success := true }, session')
      | Except.error _ =>
        (Except.ok { result with withdrawal_triggered := true,
                                 withdrawal_success := false }, session')
    else
      (Except.ok result, session')

/-- Collaborator results consumed by one `roll_faucet` call: the `play_dice`
outcome, the USD price resolved for the faucet-balance valuation, the
`faucet_cashout` outcome, the re-fetched main balance from `get_user_info`
(an exception, or the currency's entry when found), the price resolved for
the main-balance valuation, and the `withdraw` outcome. -/
structure FaucetRollEnv where
  dice : Except String DiceOutcome
  usd_price : ℚ
  cashout_result : Except String Unit
  refetch_main : Except String (Option ℚ)
  main_usd_price : ℚ
  withdraw_result : Except String Unit
deriving Repr

/-- `roll_faucet(currency, amount, win_chance)`: one faucet-mode wager.  A
`play_dice` exception re-raises; otherwise the wager record is returned, with
cashout attempted when the post-bet faucet balance's USD value reaches
`cashout_min_usd`, and withdrawal attempted only inside the successful-cashout
branch when auto-withdraw is configured and the re-fetched main balance's USD
value reaches `withdrawal_min_usd`.  A failing cashout, balance re-fetch, or
withdrawal is caught and only leaves its mark on the record. -/
def roll_faucet (cfg : BotConfig) (currency : String) (amount : ℚ)
    (win_chance : ℚ) (env : FaucetRollEnv) : Except String RollResult :=
  match env.dice with
  | Except.error e => Except.error e
  | Except.ok o =>
    let usd_value := o.new_faucet_balance * env.usd_price
    let result : RollResult := {
      currency := currency
      bet_amount := amount
      win := o.win
      profit := o.profit
      new_faucet_balance := o.new_faucet_balance
      new_main_balance := o.new_main_balance
      roll_number := o.roll_number
      win_chance := win_chance
      usd_value := usd_value }
    if usd_value ≥ cfg.cashout_min_usd then
      let result := { result with cashout_triggered := true }
      match env.cashout_result with
      | Except.error _ => Except.ok result
      | Except.ok _ =>
        let result := { result with cashout_success := true }
        if cfg.auto_withdraw ∧ cfg.withdrawal_address ≠ "" then
          match env.refetch_main with
          | Except.error _ => Except.ok result
          | Except.ok none => Except.ok result
          | Except.ok (some main_bal) =>
            let main_usd := main_bal * env.main_usd_price
            if main_usd ≥ cfg.withdrawal_min_usd then
              let result := { result with withdrawal_triggered := true }
              match env.withdraw_result with
              | Except.ok _ =>
                Except.ok { result with withdrawal_success := true }
              | Except.error _ => Except.ok result
            else Except.ok result
        else Except.ok result
    else Except.ok result

/-- The stop reasons produced by `_should_stop_session` (the interpolated
numbers of the source's reason strings are dropped). -/
inductive StopReason where
  | max_bets_reached : StopReason
  | stop_loss_triggered : StopReason
  | take_profit_triggered : StopReason
deriving DecidableEq, Repr

/-- `_should_stop_session(session)`: max-bets, then stop-loss, then
take-profit, first match winning; the percentage checks are guarded by
`initial_balance > 0`. -/
def should_stop_session (config : NormalModeConfig) (s : NormalModeSession) :
    Option StopReason :=
  if s.bet_count ≥ config.max_bets_per_session then
    some StopReason.max_bets_reached
  else if 0 < s.initial_balance ∧
      (s.initial_balance - s.current_balance) / s.initial_balance * 100 ≥
        config.stop_loss_percent then
    some StopReason.stop_loss_triggered
  else if 0 < s.initial_balance ∧
      (s.current_balance - s.initial_balance) / s.initial_balance * 100 ≥
        config.take_profit_percent then
    some StopReason.take_profit_triggered
  else none

/-- The betting loop of `run_normal_mode_session` (with `max_bets = None`, so
the `while` bound is `max_bets_per_session`): before each wager the loop
checks the `while` condition, the stop conditions, and the minimum viable
stake; a bet-submission exception is caught outside the loop, ending the
session with the state as it stood.  The list supplies the collaborator
results of the successive wagers. -/
def run_session_loop (cfg : BotConfig) (currency : String)
    (session : NormalModeSession) : List NormalRollEnv → NormalModeSession
  | [] => session
  | env :: rest =>
    if session.bet_count < cfg.normal_mode.max_bets_per_session then
      match should_stop_session cfg.normal_mode session with
      | some _ => session
      | none =>
        let min_bet := calculate_bet_amount_rat session.current_balance
          (min cfg.normal_mode.low_risk_bet_percent
               cfg.normal_mode.high_risk_bet_percent)
        if min_bet ≤ 0 then session
        else
          match roll_normal_mode cfg currency session env with
          | (Except.error _, s) => s
          | (Except.ok _, s) => run_session_loop cfg currency s rest
    else session

/-- One entry of the `get_faucet_currencies()` list consumed by the
single-pass loop, paired with the collaborator results its `roll_faucet`
call would consume. -/
structure FaucetCurrencyTask where
  currency : String
  faucet_balance : ℚ
  env : FaucetRollEnv
deriving Repr

/-- The currency loop of `run_single_pass` (bot.py lines 799-819), with the
running `faucet_index` explicit: zero/negative faucet balances are skipped
without consuming an index slot; each processed currency is rolled all-in at
`base_win_chance + (faucet_index - 1) * win_chance_increment`; a failing roll
is caught and the pass continues with the next currency. -/
def run_single_pass_from (cfg : BotConfig) :
    Nat → List FaucetCurrencyTask → List RollResult
  | _, [] => []
  | faucet_index, fc :: rest =>
    if fc.faucet_balance ≤ 0 then run_single_pass_from cfg faucet_index rest
    else
      let idx := faucet_index + 1
      let win_chance := cfg.base_win_chance +
        ((idx - 1 : Nat) : ℚ) * cfg.win_chance_increment
      match roll_faucet cfg fc.currency fc.faucet_balance win_chance fc.env with
      | Except.error _ => run_single_pass_from cfg idx rest
      | Except.ok r => r :: run_single_pass_from cfg idx rest

/-- `run_single_pass()`: the currency loop started at `faucet_index = 0`. -/
def run_single_pass (cfg : BotConfig) (tasks : List FaucetCurrencyTask) :
    List RollResult :=
  run_single_pass_from cfg 0 tasks

/-- The module-level price cache `_price_cache` / `_price_cache_time`:
per-symbol cached USD price and fetch timestamp. -/
structure PriceCache where
  price : String → Option ℚ
  fetched_at : String → Option ℚ

/-- `_get_usd_price(symbol)`: return the cached price while it is younger
than `price_refresh_sec`; otherwise fetch (`fetch = none` models a fetch
exception, `some p` a parsed response), cache and return a positive fetched
price, and fall back to the last cached value — or 0 when none exists — in
every other case.  Returns the price together with the cache afterwards. -/
def get_usd_price (cfg : BotConfig) (cache : PriceCache) (now : ℚ)
    (symbol : String) (fetch : Option ℚ) : ℚ × PriceCache :=
  let sl := symbol.toLower
  let fetch_branch : ℚ × PriceCache :=
    match fetch with
    | some price =>
      if price > 0 then
        (price, ⟨fun s => if s = sl then some price else cache.price s,
                 fun s => if s = sl then some now else cache.fetched_at s⟩)
      else ((cache.price sl).getD 0, cache)
    | none => ((cache.price sl).getD 0, cache)
  match cache.price sl with
  | some cached =>
    if now - (cache.fetched_at sl).getD 0 < cfg.price_refresh_sec then
      (cached, cache)
    else fetch_branch
  | none => fetch_branch

/-- A Python `Decimal` value: integer coefficient `man` scaled by
`10 ^ exp`. -/
structure Dec where
  man : Int
  exp : Int
deriving DecidableEq, Repr

/-- The rational value of a `Dec`. -/
def Dec.val (d : Dec) : ℚ := (d.man : ℚ) * (10 : ℚ) ^ d.exp

/-- Digit count of a coefficient, with explicit fuel so that it is
structurally recursive; the fuel-exhausted base case returns 1 and is never
reached when `n < 10 ^ fuel` (see `numDigitsAux_stable`). -/
def numDigitsAux : Nat → Nat → Nat
  | 0, _ => 1
  | fuel + 1, n => if n < 10 then 1 else numDigitsAux fuel (n / 10) + 1

/-- Number of decimal digits of `n` (1 for `n = 0`, matching `Decimal`'s
one-digit zero coefficient). -/
def numDigits (n : Nat) : Nat := numDigitsAux (n + 1) n

/-- The digit count is independent of the fuel once the fuel bounds the
number of digits. -/
theorem numDigitsAux_stable : ∀ (f₁ f₂ n : Nat), n < 10 ^ f₁ → f₁ ≤ f₂ →
    numDigitsAux f₁ n = numDigitsAux f₂ n := by
  intro f₁
  induction f₁ with
  | zero =>
    intro f₂ n hn _
    interval_cases n
    cases f₂ with
    | zero => rfl
    | succ k => simp [numDigitsAux]
  | succ k ih =>
    intro f₂ n hn hle
    cases f₂ with
    | zero => omega
    | succ m =>
      simp only [numDigitsAux]
      by_cases h10 : n < 10
      · simp [h10]
      · simp only [h10, if_false]
        have hdiv : n / 10 < 10 ^ k := by
          have hs : n < 10 ^ (k + 1) := hn
          rw [pow_succ] at hs
          omega
        rw [ih m (n / 10) hdiv (by omega)]

/-- Evaluate `numDigits` with any sufficient fuel. -/
theorem numDigits_eq (f n : Nat) (h : n < 10 ^ f) :
    numDigits n = numDigitsAux f n := by
  unfold numDigits
  rcases le_total f (n + 1) with hle | hle
  · exact (numDigitsAux_stable f (n + 1) n h hle).symm
  · have hn : n < 10 ^ (n + 1) := by
      calc n < 2 ^ n := Nat.lt_two_pow n
      _ ≤ 10 ^ n := Nat.pow_le_pow_left (by norm_num) _
      _ ≤ 10 ^ (n + 1) := Nat.pow_le_pow_right (by norm_num) (by omega)
    exact numDigitsAux_stable (n + 1) f n hn hle

/-- Round `n / d` to the nearest integer, ties to even (for `d > 0`). -/
def roundHalfEvenNat (n d : Nat) : Nat :=
  let q := n / d
  let r := n % d
  if 2 * r < d then q
  else if d < 2 * r then q + 1
  else if q % 2 = 0 then q else q + 1

/-- Sign-magnitude half-even rounding of `m / d`, as `Decimal` applies
`ROUND_HALF_EVEN` to the magnitude. -/
def roundHalfEvenInt (m : Int) (d : Nat) : Int :=
  if m < 0 then -(roundHalfEvenNat m.natAbs d : Int)
  else (roundHalfEvenNat m.natAbs d : Int)

/-- The default `decimal` context precision (28 significant digits). -/
def decimal_context_prec : Nat := 28

/-- The `_fix` step of a `Decimal` context operation: a coefficient longer
than `prec` digits is rounded (half-even) to `prec` digits, raising the
exponent accordingly. -/
def Dec.roundToPrec (prec : Nat) (d : Dec) : Dec :=
  let nd := numDigits d.man.natAbs
  if nd ≤ prec then d
  else
    let k := nd - prec
    ⟨roundHalfEvenInt d.man (10 ^ k), d.exp + k⟩

/-- `Decimal` multiplication under the default context: exact product, then
rounded to the context precision. -/
def decMul (a b : Dec) : Dec :=
  Dec.roundToPrec decimal_context_prec ⟨a.man * b.man, a.exp + b.exp⟩

/-- `Decimal` division by `Decimal(100)` under the default context.  For the
dividends this development applies it to (context-rounded products, whose
coefficients have at most `prec` digits, or `10 ^ prec` after a rounding
carry), the quotient is the exponent shift by `-2`, re-rounded to the
context precision. -/
def decDiv100 (d : Dec) : Dec :=
  Dec.roundToPrec decimal_context_prec ⟨d.man, d.exp - 2⟩

/-- `_calculate_bet_amount(balance, percent)` over the faithful `Decimal`
model: 0 when the balance or the percent is non-positive, otherwise
`(balance * Decimal(str(percent))) / Decimal(100)` with the default
context's rounding.  `percent` is the `Decimal` obtained from
`Decimal(str(percent))`. -/
def _calculate_bet_amount (balance percent : Dec) : Dec :=
  if balance.val ≤ 0 ∨ percent.val ≤ 0 then ⟨0, 0⟩
  else decDiv100 (decMul balance percent)

/-- A sequence of completed normal-mode wagers applied to a session: each
step applies the per-wager session update with the direction used for that
bet and the reported outcome. -/
def run_wagers (s : NormalModeSession) :
    List (Bool × DiceOutcome) → NormalModeSession
  | [] => s
  | step :: rest => run_wagers (update_session s step.1 step.2) rest

/-- The session returned by `roll_normal_mode` is the input session on a
bet-submission error, and the updated session otherwise — independent of the
withdrawal side effect's outcome. -/
theorem roll_normal_mode_session (cfg : BotConfig) (currency : String)
    (s : NormalModeSession) (env : NormalRollEnv) :
    (roll_normal_mode cfg currency s env).2 =
      match env.dice with
      | Except.error _ => s
      | Except.ok o => update_session s (get_bet_direction cfg s) o := by
  unfold roll_normal_mode
  cases env.dice with
  | error e => rfl
  | ok o =>
    dsimp only
    split
    · split <;> rfl
    · rfl

/-- C1: In percentage (normal) mode, the strategy tag for the next wager
(bet index `n = bet_count + 1`, 1-based) is HIGH_RISK iff
`high_risk_frequency > 0` and `n % high_risk_frequency = 0`, and LOW_RISK
otherwise; with `high_risk_frequency = 5` bets 1-4 are LOW_RISK, bet 5 is
HIGH_RISK, and bet 6 is LOW_RISK again. -/
theorem C1_next_bet_strategy_tag :
    (∀ (config : NormalModeConfig) (s : NormalModeSession),
      (determine_strategy config (s.bet_count + 1) = BetStrategy.HIGH_RISK ↔
        0 < config.high_risk_frequency ∧
          (s.bet_count + 1) % config.high_risk_frequency = 0) ∧
      (determine_strategy config (s.bet_count + 1) ≠ BetStrategy.HIGH_RISK →
        determine_strategy config (s.bet_count + 1) = BetStrategy.LOW_RISK)) ∧
    (∀ config : NormalModeConfig, config.high_risk_frequency = 5 →
      determine_strategy config 1 = BetStrategy.LOW_RISK ∧
      determine_strategy config 2 = BetStrategy.LOW_RISK ∧
      determine_strategy config 3 = BetStrategy.LOW_RISK ∧
      determine_strategy config 4 = BetStrategy.LOW_RISK ∧
      determine_strategy config 5 = BetStrategy.HIGH_RISK ∧
      determine_strategy config 6 = BetStrategy.LOW_RISK) := by
  constructor
  · intro config s
    constructor
    · unfold determine_strategy
      rcases Nat.eq_zero_or_pos config.high_risk_frequency with h | h
      · simp [h]
      · simp only [h, Nat.succ_pos, and_true, true_and, if_true]
        split
        · simp_all
        · simp_all
    · intro h
      cases hd : determine_strategy config (s.bet_count + 1) with
      | LOW_RISK => rfl
      | HIGH_RISK => exact absurd hd h
  · intro config h
    refine ⟨?_, ?_, ?_, ?_, ?_, ?_⟩ <;> simp [determine_strategy, h]

/-- Witness for C1 at the default configuration (`high_risk_frequency = 5`). -/
theorem C1_next_bet_strategy_tag_witness :
    determine_strategy {} 5 = BetStrategy.HIGH_RISK ∧
    determine_strategy {} 6 = BetStrategy.LOW_RISK :=
  ⟨(C1_next_bet_strategy_tag.2 {} rfl).2.2.2.2.1,
   (C1_next_bet_strategy_tag.2 {} rfl).2.2.2.2.2⟩

/-- C10: If the bet submission fails, `roll_normal_mode` propagates the
error and returns the session exactly as it was: every field untouched. -/
theorem C10_failed_wager_is_atomic (cfg : BotConfig) (currency : String)
    (s : NormalModeSession) (env : NormalRollEnv) (e : String)
    (h : env.dice = Except.error e) :
    roll_normal_mode cfg currency s env = (Except.error e, s) := by
  unfold roll_normal_mode
  rw [h]

/-- Witness for C10 at a concrete failing bet submission. -/
theorem C10_failed_wager_is_atomic_witness :
    roll_normal_mode {} "btc" {} ⟨Except.error "boom", 0, Except.ok ()⟩ =
      (Except.error "boom", ({} : NormalModeSession)) :=
  C10_failed_wager_is_atomic {} "btc" {} ⟨Except.error "boom", 0, Except.ok ()⟩
    "boom" rfl

/-- C6: Each completed wager increments `bet_count` by exactly 1, adds the
realized profit delta to `total_profit`, adopts the outcome's reported
post-bet main balance as `current_balance` (never recomputed from the
previous balance plus the delta — the reported balance is adopted for every
outcome, consistent or not), and persists `last_direction_high` as the
direction actually used; in the quoted case (initial balance 100, first
LOW_RISK bet wins with reported post-bet balance 105) the session ends with
`current_balance = 105`, `win_count = 1`, `consecutive_wins = 1`,
`bet_count = 1`. -/
theorem C6_wager_outcome_update :
    (∀ (cfg : BotConfig) (currency : String) (s : NormalModeSession)
        (env : NormalRollEnv) (o : DiceOutcome), env.dice = Except.ok o →
      (roll_normal_mode cfg currency s env).2.bet_count = s.bet_count + 1 ∧
      (roll_normal_mode cfg currency s env).2.total_profit =
        s.total_profit + o.profit ∧
      (roll_normal_mode cfg currency s env).2.current_balance =
        o.new_main_balance ∧
      (roll_normal_mode cfg currency s env).2.last_direction_high =
        get_bet_direction cfg s) ∧
    ((roll_normal_mode {} "btc" { initial_balance := 100, current_balance := 100 }
        ⟨Except.ok ⟨true, 5, 42, 105, 0⟩, 0, Except.ok ()⟩).2.current_balance = 105 ∧
     (roll_normal_mode {} "btc" { initial_balance := 100, current_balance := 100 }
        ⟨Except.ok ⟨true, 5, 42, 105, 0⟩, 0, Except.ok ()⟩).2.win_count = 1 ∧
     (roll_normal_mode {} "btc" { initial_balance := 100, current_balance := 100 }
        ⟨Except.ok ⟨true, 5, 42, 105, 0⟩, 0, Except.ok ()⟩).2.consecutive_wins = 1 ∧
     (roll_normal_mode {} "btc" { initial_balance := 100, current_balance := 100 }
        ⟨Except.ok ⟨true, 5, 42, 105, 0⟩, 0, Except.ok ()⟩).2.bet_count = 1) := by
  constructor
  · intro cfg currency s env o h
    have h2 := roll_normal_mode_session cfg currency s env
    rw [h] at h2
    rw [h2]
    by_cases hw : o.win <;> simp [update_session, hw]
  · exact ⟨rfl, rfl, rfl, rfl⟩

/-- Witness for C6: the general clause applied at the quoted concrete
wager. -/
theorem C6_wager_outcome_update_witness :
    (roll_normal_mode {} "btc" { initial_balance := 100, current_balance := 100 }
        ⟨Except.ok ⟨true, 5, 42, 105, 0⟩, 0, Except.ok ()⟩).2.bet_count = 0 + 1 :=
  (C6_wager_outcome_update.1 {} "btc"
    { initial_balance := 100, current_balance := 100 }
    ⟨Except.ok ⟨true, 5, 42, 105, 0⟩, 0, Except.ok ()⟩
    ⟨true, 5, 42, 105, 0⟩ rfl).1

/-- A session whose win and loss counters sum to its bet counter. -/
def counts_consistent (s : NormalModeSession) : Prop :=
  s.win_count + s.loss_count = s.bet_count

/-- Exactly one of the two streak counters is nonzero. -/
def one_streak_active (s : NormalModeSession) : Prop :=
  (0 < s.consecutive_wins ∧ s.consecutive_losses = 0) ∨
  (0 < s.consecutive_losses ∧ s.consecutive_wins = 0)

/-- The per-wager update keeps win + loss = bets. -/
theorem update_session_counts (s : NormalModeSession) (h : Bool)
    (o : DiceOutcome) (hc : counts_consistent s) :
    counts_consistent (update_session s h o) := by
  unfold counts_consistent at hc ⊢
  by_cases hw : o.win <;> simp [update_session, hw] <;> omega

/-- After any per-wager update exactly one streak counter is nonzero. -/
theorem update_session_one_streak (s : NormalModeSession) (h : Bool)
    (o : DiceOutcome) : one_streak_active (update_session s h o) := by
  by_cases hw : o.win
  · exact Or.inl (by simp [update_session, hw])
  · exact Or.inr (by simp [update_session, hw])

/-- `run_wagers` preserves count consistency. -/
theorem run_wagers_counts : ∀ (steps : List (Bool × DiceOutcome))
    (s : NormalModeSession), counts_consistent s →
    counts_consistent (run_wagers s steps)
  | [], _, hc => hc
  | step :: rest, s, hc =>
    run_wagers_counts rest _ (update_session_counts s step.1 step.2 hc)

/-- `run_wagers` preserves the one-active-streak property. -/
theorem run_wagers_one_streak : ∀ (steps : List (Bool × DiceOutcome))
    (s : NormalModeSession), one_streak_active s →
    one_streak_active (run_wagers s steps)
  | [], _, hs => hs
  | step :: rest, s, _ =>
    run_wagers_one_streak rest _ (update_session_one_streak s step.1 step.2)

/-- C5: After every completed wager, `win_count + loss_count = bet_count`
and exactly one of the streak counters is nonzero (both are zero only in the
fresh session, before the first bet); the opposite streak counter is reset
to 0 on every wager. -/
theorem C5_session_invariants :
    (∀ (b : ℚ) (steps : List (Bool × DiceOutcome)), steps ≠ [] →
      counts_consistent
        (run_wagers { initial_balance := b, current_balance := b } steps) ∧
      one_streak_active
        (run_wagers { initial_balance := b, current_balance := b } steps)) ∧
    (∀ (b : ℚ), counts_consistent
        (({ initial_balance := b, current_balance := b } : NormalModeSession)) ∧
      ({ initial_balance := b, current_balance := b } :
        NormalModeSession).consecutive_wins = 0 ∧
      ({ initial_balance := b, current_balance := b } :
        NormalModeSession).consecutive_losses = 0) ∧
    (∀ (s : NormalModeSession) (h : Bool) (o : DiceOutcome),
      (o.win = true → (update_session s h o).consecutive_losses = 0) ∧
      (o.win = false → (update_session s h o).consecutive_wins = 0)) := by
  refine ⟨?_, ?_, ?_⟩
  · intro b steps hne
    match steps, hne with
    | step :: rest, _ =>
      constructor
      · exact run_wagers_counts (step :: rest) _ rfl
      · show one_streak_active (run_wagers (update_session _ step.1 step.2) rest)
        exact run_wagers_one_streak rest _ (update_session_one_streak _ step.1 step.2)
  · intro b
    exact ⟨rfl, rfl, rfl⟩
  · intro s h o
    constructor
    · intro hw
      simp [update_session, hw]
    · intro hw
      simp [update_session, hw]

/-- Witness for C5: one winning wager from a fresh session. -/
theorem C5_session_invariants_witness :
    counts_consistent
      (run_wagers { initial_balance := 100, current_balance := 100 }
        [(true, ⟨true, 5, 42, 105, 0⟩)]) ∧
    one_streak_active
      (run_wagers { initial_balance := 100, current_balance := 100 }
        [(true, ⟨true, 5, 42, 105, 0⟩)]) :=
  C5_session_invariants.1 100 [(true, ⟨true, 5, 42, 105, 0⟩)] (by simp)

/-- One call to `roll_normal_mode` grows `bet_count` by at most 1. -/
theorem roll_bet_count_le (cfg : BotConfig) (currency : String)
    (s : NormalModeSession) (env : NormalRollEnv) :
    (roll_normal_mode cfg currency s env).2.bet_count ≤ s.bet_count + 1 := by
  rw [roll_normal_mode_session]
  cases env.dice with
  | error e => exact Nat.le_succ _
  | ok o => by_cases hw : o.win <;> simp [update_session, hw]

/-- C4: The pre-wager stop check matches in the fixed order max-bets,
stop-loss, take-profit (first match wins); the two percentage checks are
no-ops when `initial_balance = 0`; and the betting loop never lets
`bet_count` exceed `max_bets_per_session`, so the session stops before
another wager is attempted once the limit is reached. -/
theorem C4_stop_conditions :
    (∀ (config : NormalModeConfig) (s : NormalModeSession),
      (should_stop_session config s = some StopReason.max_bets_reached ↔
        config.max_bets_per_session ≤ s.bet_count) ∧
      (should_stop_session config s = some StopReason.stop_loss_triggered ↔
        ¬config.max_bets_per_session ≤ s.bet_count ∧
        (0 < s.initial_balance ∧
         (s.initial_balance - s.current_balance) / s.initial_balance * 100 ≥
           config.stop_loss_percent)) ∧
      (should_stop_session config s = some StopReason.take_profit_triggered ↔
        ¬config.max_bets_per_session ≤ s.bet_count ∧
        ¬(0 < s.initial_balance ∧
          (s.initial_balance - s.current_balance) / s.initial_balance * 100 ≥
            config.stop_loss_percent) ∧
        (0 < s.initial_balance ∧
         (s.current_balance - s.initial_balance) / s.initial_balance * 100 ≥
           config.take_profit_percent))) ∧
    (∀ (config : NormalModeConfig) (s : NormalModeSession),
      s.initial_balance = 0 →
      should_stop_session config s =
        if config.max_bets_per_session ≤ s.bet_count then
          some StopReason.max_bets_reached
        else none) ∧
    (∀ (cfg : BotConfig) (currency : String) (s : NormalModeSession)
        (envs : List NormalRollEnv),
      s.bet_count ≤ cfg.normal_mode.max_bets_per_session →
      (run_session_loop cfg currency s envs).bet_count ≤
        cfg.normal_mode.max_bets_per_session) := by
  refine ⟨?_, ?_, ?_⟩
  · intro config s
    unfold should_stop_session
    split_ifs with h1 h2 h3
    · exact ⟨iff_of_true rfl h1,
        iff_of_false (by simp) (fun hx => hx.1 h1),
        iff_of_false (by simp) (fun hx => hx.1 h1)⟩
    · exact ⟨iff_of_false (by simp) h1,
        iff_of_true rfl ⟨h1, h2⟩,
        iff_of_false (by simp) (fun hx => hx.2.1 h2)⟩
    · exact ⟨iff_of_false (by simp) h1,
        iff_of_false (by simp) (fun hx => h2 hx.2),
        iff_of_true rfl ⟨h1, h2, h3⟩⟩
    · exact ⟨iff_of_false (by simp) h1,
        iff_of_false (by simp) (fun hx => h2 hx.2),
        iff_of_false (by simp) (fun hx => h3 hx.2.2)⟩
  · intro config s h0
    unfold should_stop_session
    rw [h0]
    split_ifs with h1 h2 h3 <;> simp_all
  · intro cfg currency s envs
    induction envs generalizing s with
    | nil => intro h; exact h
    | cons env rest ih =>
      intro h
      unfold run_session_loop
      by_cases hlt : s.bet_count < cfg.normal_mode.max_bets_per_session
      · rw [if_pos hlt]
        cases hss : should_stop_session cfg.normal_mode s with
        | some r => exact h
        | none =>
          dsimp only
          split
          · exact h
          · have hb := roll_bet_count_le cfg currency s env
            cases hr : roll_normal_mode cfg currency s env with
            | mk fst snd =>
              rw [hr] at hb
              simp only [] at hb
              cases fst with
              | error e => dsimp only; omega
              | ok r => dsimp only; exact ih snd (by omega)
      · rw [if_neg hlt]
        exact h

/-- Witness for C4: the loop-bound clause at a concrete session and
environment list. -/
theorem C4_stop_conditions_witness :
    (run_session_loop {} "btc" {}
      [⟨Except.ok ⟨true, 5, 42, 105, 0⟩, 0, Except.ok ()⟩]).bet_count ≤
      ({} : BotConfig).normal_mode.max_bets_per_session :=
  C4_stop_conditions.2.2 {} "btc" {}
    [⟨Except.ok ⟨true, 5, 42, 105, 0⟩, 0, Except.ok ()⟩] (Nat.zero_le _)

/-- A successful `roll_faucet` returns a record whose stake and win chance
are exactly the arguments it was called with. -/
theorem roll_faucet_ok_fields (cfg : BotConfig) (currency : String)
    (amount win_chance : ℚ) (env : FaucetRollEnv) (o : DiceOutcome)
    (h : env.dice = Except.ok o) :
    ∃ r, roll_faucet cfg currency amount win_chance env = Except.ok r ∧
      r.win_chance = win_chance ∧ r.bet_amount = amount := by
  unfold roll_faucet
  rw [h]
  dsimp only
  repeat' split
  all_goals exact ⟨_, rfl, rfl, rfl⟩

/-- `roll_faucet` fails exactly when the bet submission fails. -/
theorem roll_faucet_error (cfg : BotConfig) (currency : String)
    (amount win_chance : ℚ) (env : FaucetRollEnv) (e : String)
    (h : env.dice = Except.error e) :
    roll_faucet cfg currency amount win_chance env = Except.error e := by
  unfold roll_faucet
  rw [h]

/-- Non-decreasing pointwise data yields a non-decreasing list. -/
theorem chain_of_mono (f : Nat → ℚ) (hf : ∀ m, f m ≤ f (m + 1)) (n : Nat) :
    ((List.range n).map f).Chain' (· ≤ ·) := by
  rw [List.chain'_iff_get]
  intro i h
  simp only [List.length_map, List.length_range] at h
  simp only [List.get_eq_getElem, List.getElem_map, List.getElem_range]
  exact hf i

/-- The single-pass loop started at index `k`: stakes are the positive
faucet balances in order, and win chances follow the progressive formula
offset by `k`. -/
theorem run_single_pass_from_spec (cfg : BotConfig) :
    ∀ (tasks : List FaucetCurrencyTask) (k : Nat),
      (∀ fc ∈ tasks, ∃ o, fc.env.dice = Except.ok o) →
      (run_single_pass_from cfg k tasks).map RollResult.bet_amount =
        (tasks.filter fun fc => !decide (fc.faucet_balance ≤ 0)).map
          FaucetCurrencyTask.faucet_balance ∧
      (run_single_pass_from cfg k tasks).map RollResult.win_chance =
        (List.range
          (tasks.filter fun fc => !decide (fc.faucet_balance ≤ 0)).length).map
          (fun j => cfg.base_win_chance +
            ((k + j : Nat) : ℚ) * cfg.win_chance_increment) := by
  intro tasks
  induction tasks with
  | nil => intro k _; exact ⟨rfl, rfl⟩
  | cons fc rest ih =>
    intro k hall
    have hfc := hall fc (List.mem_cons_self fc rest)
    have hrest : ∀ x ∈ rest, ∃ o, x.env.dice = Except.ok o :=
      fun x hx => hall x (List.mem_cons_of_mem fc hx)
    obtain ⟨o, ho⟩ := hfc
    unfold run_single_pass_from
    by_cases hz : fc.faucet_balance ≤ 0
    · rw [if_pos hz]
      have hfilter :
          (fc :: rest).filter (fun x => !decide (x.faucet_balance ≤ 0)) =
            rest.filter (fun x => !decide (x.faucet_balance ≤ 0)) := by
        simp [List.filter_cons, hz]
      rw [hfilter]
      exact ih k hrest
    · rw [if_neg hz]
      have hfilter :
          (fc :: rest).filter (fun x => !decide (x.faucet_balance ≤ 0)) =
            fc :: rest.filter (fun x => !decide (x.faucet_balance ≤ 0)) := by
        simp [List.filter_cons, hz]
      rw [hfilter]
      dsimp only
      obtain ⟨r, hr, hwc, hba⟩ := roll_faucet_ok_fields cfg fc.currency
        fc.faucet_balance
        (cfg.base_win_chance + ((k + 1 - 1 : Nat) : ℚ) * cfg.win_chance_increment)
        fc.env o ho
      rw [hr]
      dsimp only
      obtain ⟨ihba, ihwc⟩ := ih (k + 1) hrest
      constructor
      · rw [List.map_cons, List.map_cons, ihba, hba]
      · rw [List.map_cons, ihwc, hwc, List.length_cons,
          List.range_succ_eq_map, List.map_cons, List.map_map]
        congr 1
        apply List.map_congr_left
        intro j _
        simp only [Function.comp_apply, Nat.succ_eq_add_one]
        push_cast
        ring

/-- C2: In progressive (faucet) mode, with every bet submission succeeding,
the k-th currency processed in a pass (1-based, counting only positive
faucet balances — zero balances are skipped without consuming a slot) is
wagered with its full faucet balance at win chance
`base_win_chance + (k-1) * win_chance_increment`, and with a non-negative
increment the win chances are non-decreasing across the pass. -/
theorem C2_progressive_win_chances (cfg : BotConfig)
    (tasks : List FaucetCurrencyTask)
    (hall : ∀ fc ∈ tasks, ∃ o, fc.env.dice = Except.ok o) :
    (run_single_pass cfg tasks).map RollResult.bet_amount =
      (tasks.filter fun fc => !decide (fc.faucet_balance ≤ 0)).map
        FaucetCurrencyTask.faucet_balance ∧
    (run_single_pass cfg tasks).map RollResult.win_chance =
      (List.range
        (tasks.filter fun fc => !decide (fc.faucet_balance ≤ 0)).length).map
        (fun j : Nat => cfg.base_win_chance + (j : ℚ) * cfg.win_chance_increment) ∧
    (0 ≤ cfg.win_chance_increment →
      ((run_single_pass cfg tasks).map RollResult.win_chance).Chain' (· ≤ ·)) := by
  unfold run_single_pass
  obtain ⟨hba, hwc⟩ := run_single_pass_from_spec cfg tasks 0 hall
  simp only [Nat.zero_add] at hwc
  refine ⟨hba, hwc, ?_⟩
  intro hinc
  rw [hwc]
  apply chain_of_mono
  intro m
  have hc : ((m : ℚ)) ≤ ((m + 1 : Nat) : ℚ) := by push_cast; linarith
  nlinarith [hc, hinc]

/-- Witness for C2: a two-currency pass (one zero balance skipped) at the
default configuration. -/
theorem C2_progressive_win_chances_witness :
    (run_single_pass {}
      [⟨"btc", 0, ⟨Except.ok ⟨true, 1, 7, 0, 2⟩, 0, Except.error "x",
        Except.ok none, 0, Except.ok ()⟩⟩,
       ⟨"ltc", 3, ⟨Except.ok ⟨true, 1, 7, 0, 2⟩, 0, Except.error "x",
        Except.ok none, 0, Except.ok ()⟩⟩]).map RollResult.win_chance =
      [({} : BotConfig).base_win_chance] := by
  have h := (C2_progressive_win_chances {}
    [⟨"btc", 0, ⟨Except.ok ⟨true, 1, 7, 0, 2⟩, 0, Except.error "x",
      Except.ok none, 0, Except.ok ()⟩⟩,
     ⟨"ltc", 3, ⟨Except.ok ⟨true, 1, 7, 0, 2⟩, 0, Except.error "x",
      Except.ok none, 0, Except.ok ()⟩⟩]
    (by
      intro fc hfc
      fin_cases hfc
      · exact ⟨⟨true, 1, 7, 0, 2⟩, rfl⟩
      · exact ⟨⟨true, 1, 7, 0, 2⟩, rfl⟩)).2.1
  rw [h]
  norm_num [List.range_succ]

/-- C7 counterexample: a normal-mode wager (auto-withdraw on, address set,
post-bet balance worth at least the withdrawal minimum) invokes the
withdrawal side effect even though no cashout was triggered, let alone
succeeded, in that wager — refuting "the orchestrator never invokes withdraw
in a wager where no cashout succeeded". -/
theorem C7_counterexample :
    ((roll_normal_mode { auto_withdraw := true, withdrawal_address := "addr" }
        "btc" { initial_balance := 100, current_balance := 100 }
        ⟨Except.ok ⟨true, 5, 1, 105, 0⟩, 1, Except.ok ()⟩).1.map
      (fun r => (r.withdrawal_triggered, r.cashout_triggered,
        r.cashout_success))) = Except.ok (true, false, false) := by
  norm_num [roll_normal_mode, update_session, get_bet_direction,
    determine_strategy, calculate_bet_amount_rat, Except.map]
  rw [if_neg (by decide : ¬("addr" = ""))]

/-- C7 amended: in faucet mode a withdrawal is invoked only inside the same
wager's successful-cashout branch, with auto-withdraw configured and the
re-fetched main balance valued at or above the withdrawal minimum; in normal
mode a withdrawal needs no cashout — it is invoked exactly when auto-withdraw
is configured with an address and the post-bet balance valuation reaches the
minimum (the conditions are necessary, clause 2, and sufficient, clause 3). -/
theorem C7_amended_withdrawal_gating :
    (∀ (cfg : BotConfig) (currency : String) (amount win_chance : ℚ)
        (env : FaucetRollEnv) (r : RollResult),
      roll_faucet cfg currency amount win_chance env = Except.ok r →
      r.withdrawal_triggered = true →
      r.cashout_triggered = true ∧ r.cashout_success = true ∧
      cfg.auto_withdraw = true ∧ cfg.withdrawal_address ≠ "" ∧
      ∃ mb, env.refetch_main = Except.ok (some mb) ∧
        mb * env.main_usd_price ≥ cfg.withdrawal_min_usd) ∧
    (∀ (cfg : BotConfig) (currency : String) (s : NormalModeSession)
        (env : NormalRollEnv) (r : RollResult),
      (roll_normal_mode cfg currency s env).1 = Except.ok r →
      r.withdrawal_triggered = true →
      cfg.auto_withdraw = true ∧ cfg.withdrawal_address ≠ "" ∧
      r.usd_value ≥ cfg.withdrawal_min_usd) ∧
    (∀ (cfg : BotConfig) (currency : String) (s : NormalModeSession)
        (env : NormalRollEnv) (o : DiceOutcome),
      env.dice = Except.ok o →
      cfg.auto_withdraw = true → cfg.withdrawal_address ≠ "" →
      o.new_main_balance * env.usd_price ≥ cfg.withdrawal_min_usd →
      ∃ r, (roll_normal_mode cfg currency s env).1 = Except.ok r ∧
        r.withdrawal_triggered = true ∧
        r.usd_value ≥ cfg.withdrawal_min_usd) := by
  refine ⟨?_, ?_, ?_⟩
  · intro cfg currency amount win_chance env r hok htrig
    unfold roll_faucet at hok
    cases hd : env.dice with
    | error e => rw [hd] at hok; exact Except.noConfusion hok
    | ok o =>
      rw [hd] at hok
      try dsimp only at hok
      by_cases h1 : o.new_faucet_balance * env.usd_price ≥ cfg.cashout_min_usd
      · rw [if_pos h1] at hok
        cases hc : env.cashout_result with
        | error e2 =>
          rw [hc] at hok
          injection hok with hr
          subst hr
          simp at htrig
        | ok u =>
          rw [hc] at hok
          try dsimp only at hok
          by_cases h2 : cfg.auto_withdraw ∧ cfg.withdrawal_address ≠ ""
          · rw [if_pos h2] at hok
            cases hm : env.refetch_main with
            | error e3 =>
              rw [hm] at hok
              injection hok with hr
              subst hr
              simp at htrig
            | ok mopt =>
              rw [hm] at hok
              try dsimp only at hok
              cases mopt with
              | none =>
                try dsimp only at hok
                injection hok with hr
                subst hr
                simp at htrig
              | some mb =>
                try dsimp only at hok
                by_cases h3 : mb * env.main_usd_price ≥ cfg.withdrawal_min_usd
                · rw [if_pos h3] at hok
                  cases hw : env.withdraw_result with
                  | ok u2 =>
                    rw [hw] at hok
                    try dsimp only at hok
                    injection hok with hr
                    subst hr
                    refine ⟨rfl, rfl, ?_, h2.2, mb, rfl, h3⟩
                    have := h2.1
                    simpa using this
                  | error e4 =>
                    rw [hw] at hok
                    try dsimp only at hok
                    injection hok with hr
                    subst hr
                    refine ⟨rfl, rfl, ?_, h2.2, mb, rfl, h3⟩
                    have := h2.1
                    simpa using this
                · rw [if_neg h3] at hok
                  injection hok with hr
                  subst hr
                  simp at htrig
          · rw [if_neg h2] at hok
            injection hok with hr
            subst hr
            simp at htrig
      · rw [if_neg h1] at hok
        injection hok with hr
        subst hr
        simp at htrig
  · intro cfg currency s env r hok htrig
    unfold roll_normal_mode at hok
    cases hd : env.dice with
    | error e => rw [hd] at hok; exact Except.noConfusion hok
    | ok o =>
      rw [hd] at hok
      try dsimp only at hok
      by_cases h1 : cfg.auto_withdraw ∧ cfg.withdrawal_address ≠ "" ∧
          o.new_main_balance * env.usd_price ≥ cfg.withdrawal_min_usd
      · rw [if_pos h1] at hok
        cases hw : env.withdraw_result with
        | ok u =>
          rw [hw] at hok
          try dsimp only at hok
          injection hok with hr
          subst hr
          exact ⟨by simpa using h1.1, h1.2.1, by simpa using h1.2.2⟩
        | error e2 =>
          rw [hw] at hok
          try dsimp only at hok
          injection hok with hr
          subst hr
          exact ⟨by simpa using h1.1, h1.2.1, by simpa using h1.2.2⟩
      · rw [if_neg h1] at hok
        injection hok with hr
        subst hr
        simp at htrig
  · intro cfg currency s env o hd ha haddr h1
    unfold roll_normal_mode
    rw [hd]
    try dsimp only
    rw [if_pos ⟨ha, haddr, h1⟩]
    cases hw : env.withdraw_result with
    | ok u =>
      try dsimp only
      exact ⟨_, rfl, rfl, h1⟩
    | error e =>
      try dsimp only
      exact ⟨_, rfl, rfl, h1⟩

/-- Concrete configuration for the C7 witness wager. -/
def wcfg : BotConfig := { auto_withdraw := true, withdrawal_address := "addr" }

/-- Concrete collaborator results for the C7 witness wager: winning roll,
BTC at 50000 USD, cashout and withdrawal both succeed. -/
def wenv : FaucetRollEnv :=
  ⟨Except.ok ⟨true, 1, 7, 1/500, 1/500⟩, 50000, Except.ok (),
    Except.ok (some (1/500)), 50000, Except.ok ()⟩

/-- The wager record produced by the C7 witness wager. -/
def wrec : RollResult :=
  { currency := "btc", bet_amount := 1/500, win := true, profit := 1,
    new_faucet_balance := 1/500, new_main_balance := 1/500, roll_number := 7,
    win_chance := 1, bet_high := true, strategy := none,
    cashout_triggered := true, cashout_success := true,
    withdrawal_triggered := true, withdrawal_success := true,
    usd_value := 100 }

/-- Witness for C7's amended theorem: a concrete faucet wager whose
withdrawal fires inside the successful-cashout branch, and a concrete
normal-mode wager that the sufficiency clause shows must invoke the
withdrawal. -/
theorem C7_amended_withdrawal_gating_witness :
    (wcfg.auto_withdraw = true ∧ wcfg.withdrawal_address ≠ "") ∧
    ∃ r, (roll_normal_mode
        { auto_withdraw := true, withdrawal_address := "addr" } "btc"
        { initial_balance := 100, current_balance := 100 }
        ⟨Except.ok ⟨true, 5, 1, 105, 0⟩, 1, Except.ok ()⟩).1 = Except.ok r ∧
      r.withdrawal_triggered = true ∧
      r.usd_value ≥ ({ auto_withdraw := true, withdrawal_address := "addr" } :
        BotConfig).withdrawal_min_usd := by
  have hroll : roll_faucet wcfg "btc" (1/500) 1 wenv = Except.ok wrec := by
    norm_num [roll_faucet, wcfg, wenv, wrec]
    decide
  have h := C7_amended_withdrawal_gating.1 wcfg "btc" (1/500) 1 wenv wrec
    hroll (by rfl)
  refine ⟨⟨h.2.2.1, h.2.2.2.1⟩, ?_⟩
  exact C7_amended_withdrawal_gating.2.2
    { auto_withdraw := true, withdrawal_address := "addr" } "btc"
    { initial_balance := 100, current_balance := 100 }
    ⟨Except.ok ⟨true, 5, 1, 105, 0⟩, 1, Except.ok ()⟩
    ⟨true, 5, 1, 105, 0⟩ rfl rfl (by decide) (by norm_num)

/-- C8: A failing cashout or withdrawal is recorded on the wager record as
`triggered = true`, `success = false`; the call still returns a record (the
failure does not propagate), the record keeps the pre-transfer outcome
(win flag, profit, balances), and in normal mode the already-applied session
update stands regardless of the withdrawal failure. -/
theorem C8_side_effect_failures :
    (∀ (cfg : BotConfig) (currency : String) (amount win_chance : ℚ)
        (env : FaucetRollEnv) (o : DiceOutcome) (e : String),
      env.dice = Except.ok o →
      o.new_faucet_balance * env.usd_price ≥ cfg.cashout_min_usd →
      env.cashout_result = Except.error e →
      ∃ r, roll_faucet cfg currency amount win_chance env = Except.ok r ∧
        r.cashout_triggered = true ∧ r.cashout_success = false ∧
        r.withdrawal_triggered = false ∧ r.win = o.win ∧ r.profit = o.profit ∧
        r.new_main_balance = o.new_main_balance ∧
        r.new_faucet_balance = o.new_faucet_balance) ∧
    (∀ (cfg : BotConfig) (currency : String) (amount win_chance : ℚ)
        (env : FaucetRollEnv) (o : DiceOutcome) (mb : ℚ) (e : String),
      env.dice = Except.ok o →
      o.new_faucet_balance * env.usd_price ≥ cfg.cashout_min_usd →
      env.cashout_result = Except.ok () →
      cfg.auto_withdraw = true → cfg.withdrawal_address ≠ "" →
      env.refetch_main = Except.ok (some mb) →
      mb * env.main_usd_price ≥ cfg.withdrawal_min_usd →
      env.withdraw_result = Except.error e →
      ∃ r, roll_faucet cfg currency amount win_chance env = Except.ok r ∧
        r.withdrawal_triggered = true ∧ r.withdrawal_success = false ∧
        r.cashout_triggered = true ∧ r.cashout_success = true ∧
        r.win = o.win ∧ r.profit = o.profit ∧
        r.new_main_balance = o.new_main_balance ∧
        r.new_faucet_balance = o.new_faucet_balance) ∧
    (∀ (cfg : BotConfig) (currency : String) (s : NormalModeSession)
        (env : NormalRollEnv) (o : DiceOutcome) (e : String),
      env.dice = Except.ok o →
      cfg.auto_withdraw = true → cfg.withdrawal_address ≠ "" →
      o.new_main_balance * env.usd_price ≥ cfg.withdrawal_min_usd →
      env.withdraw_result = Except.error e →
      (∃ r, (roll_normal_mode cfg currency s env).1 = Except.ok r ∧
        r.withdrawal_triggered = true ∧ r.withdrawal_success = false ∧
        r.win = o.win ∧ r.profit = o.profit) ∧
      (roll_normal_mode cfg currency s env).2 =
        update_session s (get_bet_direction cfg s) o) := by
  refine ⟨?_, ?_, ?_⟩
  · intro cfg currency amount win_chance env o e hd h1 hc
    unfold roll_faucet
    rw [hd]
    dsimp only
    rw [if_pos h1, hc]
    exact ⟨_, rfl, rfl, rfl, rfl, rfl, rfl, rfl, rfl⟩
  · intro cfg currency amount win_chance env o mb e hd h1 hc ha haddr hm h3 hw
    unfold roll_faucet
    rw [hd]
    dsimp only
    rw [if_pos h1, hc]
    dsimp only
    rw [if_pos ⟨ha, haddr⟩, hm]
    dsimp only
    rw [if_pos h3, hw]
    exact ⟨_, rfl, rfl, rfl, rfl, rfl, rfl, rfl, rfl, rfl⟩
  · intro cfg currency s env o e hd ha haddr h1 hw
    constructor
    · unfold roll_normal_mode
      rw [hd]
      dsimp only
      rw [if_pos ⟨ha, haddr, h1⟩, hw]
      exact ⟨_, rfl, rfl, rfl, rfl, rfl⟩
    · have h2 := roll_normal_mode_session cfg currency s env
      rw [hd] at h2
      exact h2

/-- Witness for C8: a concrete faucet wager whose cashout fails. -/
theorem C8_side_effect_failures_witness :
    ∃ r, roll_faucet {} "btc" (1/500) 1
        ⟨Except.ok ⟨true, 1, 7, 1/500, 1/500⟩, 50000, Except.error "down",
          Except.ok none, 50000, Except.ok ()⟩ = Except.ok r ∧
      r.cashout_triggered = true ∧ r.cashout_success = false ∧
      r.withdrawal_triggered = false ∧ r.win = true ∧ r.profit = 1 ∧
      r.new_main_balance = 1/500 ∧ r.new_faucet_balance = 1/500 :=
  C8_side_effect_failures.1 {} "btc" (1/500) 1
    ⟨Except.ok ⟨true, 1, 7, 1/500, 1/500⟩, 50000, Except.error "down",
      Except.ok none, 50000, Except.ok ()⟩
    ⟨true, 1, 7, 1/500, 1/500⟩ "down" rfl (by norm_num) rfl

/-- C9: The USD price lookup never fails the caller: a cached entry younger
than the refresh interval is returned as-is (cache untouched); otherwise the
entry is refreshed lazily, and when the fetch fails (exception or
non-positive parsed price) the last cached value — or 0 when nothing was
ever cached — is returned with the cache unchanged; a successful positive
fetch is returned and cached. -/
theorem C9_price_cache :
    (∀ (cfg : BotConfig) (cache : PriceCache) (now : ℚ) (symbol : String)
        (fetch : Option ℚ) (v : ℚ),
      cache.price symbol.toLower = some v →
      now - (cache.fetched_at symbol.toLower).getD 0 < cfg.price_refresh_sec →
      get_usd_price cfg cache now symbol fetch = (v, cache)) ∧
    (∀ (cfg : BotConfig) (cache : PriceCache) (now : ℚ) (symbol : String)
        (fetch : Option ℚ),
      (fetch = none ∨ ∃ p, fetch = some p ∧ ¬0 < p) →
      (cache.price symbol.toLower = none ∨
        ¬now - (cache.fetched_at symbol.toLower).getD 0 <
          cfg.price_refresh_sec) →
      get_usd_price cfg cache now symbol fetch =
        ((cache.price symbol.toLower).getD 0, cache)) ∧
    (∀ (cfg : BotConfig) (cache : PriceCache) (now : ℚ) (symbol : String)
        (p : ℚ),
      0 < p →
      (cache.price symbol.toLower = none ∨
        ¬now - (cache.fetched_at symbol.toLower).getD 0 <
          cfg.price_refresh_sec) →
      (get_usd_price cfg cache now symbol (some p)).1 = p ∧
      (get_usd_price cfg cache now symbol (some p)).2.price
        symbol.toLower = some p ∧
      (get_usd_price cfg cache now symbol (some p)).2.fetched_at
        symbol.toLower = some now) := by
  refine ⟨?_, ?_, ?_⟩
  · intro cfg cache now symbol fetch v hv hfresh
    unfold get_usd_price
    dsimp only
    rw [hv]
    dsimp only
    rw [if_pos hfresh]
  · intro cfg cache now symbol fetch hfail hmiss
    unfold get_usd_price
    dsimp only
    cases hp : cache.price symbol.toLower with
    | none =>
      dsimp only
      rcases hfail with hf | ⟨p, hf, hple⟩
      · subst hf; rfl
      · subst hf
        dsimp only
        rw [if_neg hple]
    | some v =>
      dsimp only
      rcases hmiss with hm | hm
      · rw [hp] at hm
        exact Option.noConfusion hm
      · rw [if_neg hm]
        rcases hfail with hf | ⟨p, hf, hple⟩
        · subst hf; rfl
        · subst hf
          dsimp only
          rw [if_neg hple]
  · intro cfg cache now symbol p hpos hmiss
    unfold get_usd_price
    dsimp only
    cases hp : cache.price symbol.toLower with
    | none =>
      dsimp only
      rw [if_pos hpos]
      refine ⟨rfl, ?_, ?_⟩ <;> simp
    | some v =>
      try dsimp only
      rcases hmiss with hm | hm
      · rw [hp] at hm
        exact Option.noConfusion hm
      · rw [if_neg hm]
        try dsimp only
        rw [if_pos hpos]
        refine ⟨rfl, ?_, ?_⟩ <;> simp

/-- Witness for C9: a fresh cached BTC price is served from the cache. -/
theorem C9_price_cache_witness :
    get_usd_price {}
      ⟨fun s => if s = "btc".toLower then some 50000 else none,
       fun s => if s = "btc".toLower then some 0 else none⟩
      100 "btc" none =
      (50000,
       ⟨fun s => if s = "btc".toLower then some 50000 else none,
        fun s => if s = "btc".toLower then some 0 else none⟩) :=
  C9_price_cache.1 {}
    ⟨fun s => if s = "btc".toLower then some 50000 else none,
     fun s => if s = "btc".toLower then some 0 else none⟩
    100 "btc" none 50000 (by simp) (by simp; norm_num)

/-- C3 counterexample: at `balance = Decimal('1.0000000000000000000000000001')`
(29 significant digits) and `percent = 3.0`, the default `decimal` context
rounds the product to 28 significant digits, so `_calculate_bet_amount`
returns 0.03 while the exact rational value of `balance * percent / 100` is
0.030000000000000000000000000003 — the claimed exactness fails. -/
theorem C3_counterexample :
    Dec.val (_calculate_bet_amount ⟨10 ^ 28 + 1, -28⟩ ⟨30, -1⟩) ≠
      Dec.val ⟨10 ^ 28 + 1, -28⟩ * Dec.val ⟨30, -1⟩ / 100 := by
  have hmul : decMul ⟨10 ^ 28 + 1, -28⟩ ⟨30, -1⟩ = ⟨3 * 10 ^ 27, -27⟩ := by
    have h1 : (((10 ^ 28 + 1) * 30 : Int)).natAbs =
        300000000000000000000000000030 := by
      norm_num
    have hd : numDigits (((10 ^ 28 + 1) * 30 : Int)).natAbs = 30 := by
      rw [h1, numDigits_eq 31 300000000000000000000000000030 (by norm_num)]
      decide
    simp only [decMul, Dec.roundToPrec, decimal_context_prec, hd]
    norm_num [roundHalfEvenInt, roundHalfEvenNat]
  have hdiv : decDiv100 ⟨3 * 10 ^ 27, -27⟩ = ⟨3 * 10 ^ 27, -29⟩ := by
    have h1 : ((3 * 10 ^ 27 : Int)).natAbs = 3000000000000000000000000000 := by
      norm_num
    have hd : numDigits ((3 * 10 ^ 27 : Int)).natAbs = 28 := by
      rw [h1, numDigits_eq 29 3000000000000000000000000000 (by norm_num)]
      decide
    simp only [decDiv100, Dec.roundToPrec, decimal_context_prec, hd]
    norm_num
  have hguard : ¬ (Dec.val (⟨10 ^ 28 + 1, -28⟩ : Dec) ≤ 0 ∨
      Dec.val (⟨30, -1⟩ : Dec) ≤ 0) := by
    norm_num [Dec.val]
  unfold _calculate_bet_amount
  rw [if_neg hguard, hmul, hdiv]
  norm_num [Dec.val]

/-- C3 amended: `_calculate_bet_amount` returns 0 whenever the balance or
the percent is non-positive; for positive inputs it returns exactly
`balance * percent / 100` whenever the exact product's coefficient fits in
the `Decimal` context's 28 significant digits (beyond that, the product is
rounded half-even to 28 digits before the division). -/
theorem C3_amended_bet_amount :
    (∀ b p : Dec, b.val ≤ 0 ∨ p.val ≤ 0 →
      (_calculate_bet_amount b p).val = 0) ∧
    (∀ b p : Dec, 0 < b.val → 0 < p.val →
      numDigits (b.man * p.man).natAbs ≤ 28 →
      (_calculate_bet_amount b p).val = b.val * p.val / 100) := by
  constructor
  · intro b p h
    unfold _calculate_bet_amount
    rw [if_pos h]
    simp [Dec.val]
  · intro b p hb hp hdig
    have hguard : ¬ (b.val ≤ 0 ∨ p.val ≤ 0) := by push_neg; exact ⟨hb, hp⟩
    have hmul : decMul b p = ⟨b.man * p.man, b.exp + p.exp⟩ := by
      simp only [decMul, Dec.roundToPrec, decimal_context_prec]
      rw [if_pos hdig]
    have hdiv : decDiv100 ⟨b.man * p.man, b.exp + p.exp⟩ =
        ⟨b.man * p.man, b.exp + p.exp - 2⟩ := by
      simp only [decDiv100, Dec.roundToPrec, decimal_context_prec]
      rw [if_pos hdig]
    unfold _calculate_bet_amount
    rw [if_neg hguard, hmul, hdiv]
    have h10 : (10 : ℚ) ≠ 0 := by norm_num
    simp only [Dec.val]
    rw [zpow_sub₀ h10, zpow_add₀ h10]
    push_cast
    have h100 : (10 : ℚ) ^ (2 : ℤ) = 100 := by norm_num
    rw [h100]
    ring

/-- Witness for C3's amended theorem: `balance = 100`, `percent = 5.0`
(`Decimal('5.0') = ⟨50, -1⟩`) give exactly 5. -/
theorem C3_amended_bet_amount_witness :
    0 < Dec.val ⟨100, 0⟩ ∧ 0 < Dec.val ⟨50, -1⟩ ∧
    numDigits ((100 * 50 : Int)).natAbs ≤ 28 ∧
    Dec.val (_calculate_bet_amount ⟨100, 0⟩ ⟨50, -1⟩) =
      Dec.val ⟨100, 0⟩ * Dec.val ⟨50, -1⟩ / 100 := by
  have h1 : (0:ℚ) < Dec.val ⟨100, 0⟩ := by norm_num [Dec.val]
  have h2 : (0:ℚ) < Dec.val ⟨50, -1⟩ := by norm_num [Dec.val]
  have h3 : numDigits ((100 * 50 : Int)).natAbs ≤ 28 := by
    rw [show ((100 * 50 : Int)).natAbs = 5000 from by norm_num,
      numDigits_eq 4 5000 (by norm_num)]
    decide
  exact ⟨h1, h2, h3,
    C3_amended_bet_amount.2 ⟨100, 0⟩ ⟨50, -1⟩ h1 h2 h3⟩

end FaucetBot
